import Mathlib

/-!
Verification of the `cache-store` in-memory cache (Go, `cache.go`) against its
natural-language specification.

The embedding is a shallow one: the `sync.Map` of the Go `CacheStore` becomes
an association list from keys to `CachedItem`s, the wall clock
(`time.Now().UnixNano()`) becomes an explicit `now : Int` argument to every
operation that reads it, Go `interface{}` arguments that may be `nil` become
`Option`-typed arguments, and Go `error` results become `Option String`
carrying the exact error message of the source. The background sweeper
goroutine is modelled by its per-tick body `cleanupExpiredItems` applied at a
captured time.
-/

namespace CacheSpec

/-- `CachedItem` from `cache.go`: a stored value together with its expiration
time in nanoseconds since the Unix epoch (`0` means no expiration). -/
structure CachedItem (V : Type) where
  data : V
  expires : Int
deriving DecidableEq

/-- `CacheStore` from `cache.go`: the item map, the cancellation state of the
cleaning goroutine (`ctx`/`cancel`), and the cleaning interval. -/
structure CacheStore (K V : Type) where
  items : List (K × CachedItem V)
  cancelled : Bool
  cleaningInterval : Int
deriving DecidableEq

/-- `sync.Map.Load`: find the item stored under key `k`, if any. -/
def lookup {K V : Type} [DecidableEq K] (k : K) :
    List (K × CachedItem V) → Option (CachedItem V)
  | [] => none
  | (k', it) :: rest => if k' = k then some it else lookup k rest

/-- `sync.Map.Delete`: remove the binding of key `k`. -/
def eraseKey {K V : Type} [DecidableEq K] (k : K) :
    List (K × CachedItem V) → List (K × CachedItem V)
  | [] => []
  | (k', it) :: rest => if k' = k then eraseKey k rest else (k', it) :: eraseKey k rest

/-- `NewCacheStore` from `cache.go`: reject a non-positive cleaning interval,
otherwise return a store with an empty map and a live (not cancelled)
cleaning goroutine. -/
def NewCacheStore (K V : Type) (cleaningInterval : Int) : Except String (CacheStore K V) :=
  if cleaningInterval ≤ 0 then
    Except.error "cleaning interval must be positive"
  else
    Except.ok { items := [], cancelled := false, cleaningInterval := cleaningInterval }

/-- The result of `Get`: `(interface{}, bool, error)` plus the store state
after the call (the Go method mutates the receiver's map). -/
structure GetResult (K V : Type) where
  value : Option V
  found : Bool
  error : Option String
  store : CacheStore K V
deriving DecidableEq

/-- `Get` from `cache.go`: nil keys are rejected; an absent key is "not
found"; a present item whose `expires` is positive and strictly in the past
is deleted and reported "not found"; otherwise the data is returned. -/
def Get {K V : Type} [DecidableEq K] (st : CacheStore K V) (key : Option K) (now : Int) :
    GetResult K V :=
  match key with
  | none => ⟨none, false, some "key cannot be nil", st⟩
  | some k =>
    match lookup k st.items with
    | none => ⟨none, false, none, st⟩
    | some item =>
      if item.expires > 0 ∧ now > item.expires then
        ⟨none, false, none, { st with items := eraseKey k st.items }⟩
      else
        ⟨some item.data, true, none, st⟩

/-- `Set` from `cache.go`: nil keys and nil values are rejected; otherwise
the expiration is `now + duration` for a positive duration and `0` (never
expires) otherwise, and the new item replaces any existing binding. -/
def Set {K V : Type} [DecidableEq K] (st : CacheStore K V) (key : Option K)
    (value : Option V) (duration : Int) (now : Int) : Option String × CacheStore K V :=
  match key with
  | none => (some "key cannot be nil", st)
  | some k =>
    match value with
    | none => (some "value cannot be nil", st)
    | some v =>
      let expires : Int := if duration > 0 then now + duration else 0
      (none, { st with items := (k, ⟨v, expires⟩) :: eraseKey k st.items })

/-- The body of `Iterate`'s `Range` callback, folded over the entries: expired
entries are deleted and skipped, live entries are passed to `f`, and a `false`
answer from `f` stops the scan. Returns the entries remaining in the map and
the `(key, value)` pairs `f` was invoked on, in order. -/
def iterGo {K V : Type} (f : K → V → Bool) (now : Int) :
    List (K × CachedItem V) → List (K × CachedItem V) × List (K × V)
  | [] => ([], [])
  | (k, item) :: rest =>
    if item.expires > 0 ∧ now > item.expires then
      iterGo f now rest
    else if f k item.data then
      ((k, item) :: (iterGo f now rest).1, (k, item.data) :: (iterGo f now rest).2)
    else
      ((k, item) :: rest, [(k, item.data)])

/-- The result of `Iterate`: the returned `error`, the store state after the
scan, and the trace of `(key, value)` pairs the callback was invoked on. -/
structure IterateResult (K V : Type) where
  error : Option String
  store : CacheStore K V
  visited : List (K × V)
deriving DecidableEq

/-- `Iterate` from `cache.go`: a nil callback is rejected; otherwise the
current time is captured once and the entries are scanned with `iterGo`. -/
def Iterate {K V : Type} (st : CacheStore K V) (f : Option (K → V → Bool)) (now : Int) :
    IterateResult K V :=
  match f with
  | none => ⟨some "function cannot be nil", st, []⟩
  | some fn => ⟨none, { st with items := (iterGo fn now st.items).1 }, (iterGo fn now st.items).2⟩

/-- `RemoveKey` from `cache.go`: a nil key is rejected; otherwise the key's
binding is deleted unconditionally. -/
def RemoveKey {K V : Type} [DecidableEq K] (st : CacheStore K V) (key : Option K) :
    Option String × CacheStore K V :=
  match key with
  | none => (some "key cannot be nil", st)
  | some k => (none, { st with items := eraseKey k st.items })

/-- `CloseCacheStore` from `cache.go`: cancel the cleaning goroutine's context
and replace the item map with a fresh empty one. -/
def CloseCacheStore {K V : Type} (st : CacheStore K V) : CacheStore K V :=
  { st with cancelled := true, items := [] }

/-- One pass of the sweeper's `Range` in `cleanupExpiredItems`: delete every
entry whose `expires` is positive and strictly before the captured time. -/
def sweep {K V : Type} (now : Int) :
    List (K × CachedItem V) → List (K × CachedItem V)
  | [] => []
  | (k, item) :: rest =>
    if item.expires > 0 ∧ now > item.expires then sweep now rest
    else (k, item) :: sweep now rest

/-- One tick of `cleanupExpiredItems` from `cache.go`, at captured time
`now = time.Now().UnixNano()`. -/
def cleanupExpiredItems {K V : Type} (now : Int) (st : CacheStore K V) : CacheStore K V :=
  { st with items := sweep now st.items }

/-! ### Helper lemmas -/

theorem lookup_eraseKey_self {K V : Type} [DecidableEq K] (k : K)
    (l : List (K × CachedItem V)) : lookup k (eraseKey k l) = none := by
  induction l with
  | nil => rfl
  | cons p rest ih =>
    obtain ⟨k', it⟩ := p
    by_cases h : k' = k
    · simp [eraseKey, h, ih]
    · simp [eraseKey, lookup, h, ih]

theorem lookup_eraseKey_ne {K V : Type} [DecidableEq K] {k k' : K} (h : k' ≠ k)
    (l : List (K × CachedItem V)) : lookup k' (eraseKey k l) = lookup k' l := by
  induction l with
  | nil => rfl
  | cons p rest ih =>
    obtain ⟨k₀, it⟩ := p
    by_cases h0 : k₀ = k
    · simp [eraseKey, lookup, h0, Ne.symm h, ih]
    · by_cases h1 : k₀ = k'
      · simp [eraseKey, lookup, h0, h1, h, ih]
      · simp [eraseKey, lookup, h0, h1, ih]

theorem lookup_mem {K V : Type} [DecidableEq K] {k : K} {it : CachedItem V}
    {l : List (K × CachedItem V)} (h : lookup k l = some it) : (k, it) ∈ l := by
  induction l with
  | nil => simp [lookup] at h
  | cons p rest ih =>
    obtain ⟨k', it'⟩ := p
    by_cases h0 : k' = k
    · simp [lookup, h0] at h
      simp [h0, h]
    · simp [lookup, h0] at h
      exact List.mem_cons_of_mem _ (ih h)

theorem mem_sweep {K V : Type} (now : Int) (p : K × CachedItem V)
    (l : List (K × CachedItem V)) :
    p ∈ sweep now l ↔ p ∈ l ∧ ¬(p.2.expires > 0 ∧ now > p.2.expires) := by
  induction l with
  | nil => simp [sweep]
  | cons q rest ih =>
    obtain ⟨k, it⟩ := q
    by_cases h : it.expires > 0 ∧ now > it.expires
    · simp only [sweep, if_pos h]
      constructor
      · intro hp
        exact ⟨List.mem_cons_of_mem _ (ih.mp hp).1, (ih.mp hp).2⟩
      · rintro ⟨hp, hv⟩
        rcases List.mem_cons.mp hp with rfl | hp'
        · exact absurd h hv
        · exact ih.mpr ⟨hp', hv⟩
    · simp only [sweep, if_neg h]
      constructor
      · intro hp
        rcases List.mem_cons.mp hp with rfl | hp'
        · exact ⟨List.mem_cons_self _ _, h⟩
        · exact ⟨List.mem_cons_of_mem _ (ih.mp hp').1, (ih.mp hp').2⟩
      · rintro ⟨hp, hv⟩
        rcases List.mem_cons.mp hp with rfl | hp'
        · exact List.mem_cons_self _ _
        · exact List.mem_cons_of_mem _ (ih.mpr ⟨hp', hv⟩)

theorem lookup_sweep {K V : Type} [DecidableEq K] {k : K} {it : CachedItem V}
    (now : Int) {l : List (K × CachedItem V)} (hl : lookup k l = some it)
    (hv : ¬(it.expires > 0 ∧ now > it.expires)) :
    lookup k (sweep now l) = some it := by
  induction l with
  | nil => simp [lookup] at hl
  | cons p rest ih =>
    obtain ⟨k', it'⟩ := p
    by_cases h0 : k' = k
    · simp only [lookup, if_pos h0] at hl
      cases hl
      simp [sweep, if_neg hv, lookup, h0]
    · simp only [lookup, if_neg h0] at hl
      by_cases h : it'.expires > 0 ∧ now > it'.expires
      · simp [sweep, h, ih hl]
      · simp [sweep, h, lookup, h0, ih hl]

theorem iterGo_true {K V : Type} (now : Int) (l : List (K × CachedItem V)) :
    iterGo (fun _ _ => true) now l =
      (sweep now l, (sweep now l).map (fun p => (p.1, p.2.data))) := by
  induction l with
  | nil => rfl
  | cons p rest ih =>
    obtain ⟨k, it⟩ := p
    by_cases h : it.expires > 0 ∧ now > it.expires
    · simp [iterGo, sweep, h, ih]
    · simp [iterGo, sweep, h, ih]

/-- Whether every callback invocation in the trace except possibly the last
returned `true`: the scan never continued past a `false` answer. -/
def allButLastTrue {K V : Type} (f : K → V → Bool) : List (K × V) → Prop
  | [] => True
  | [_] => True
  | p :: q :: rest => f p.1 p.2 = true ∧ allButLastTrue f (q :: rest)

/-- Whether the trace is nonempty and its last callback invocation returned
`false`: the scan was cut short by the callback. -/
def lastFalse {K V : Type} (f : K → V → Bool) : List (K × V) → Prop
  | [] => False
  | [p] => f p.1 p.2 = false
  | _ :: q :: rest => lastFalse f (q :: rest)

theorem iterGo_split {K V : Type} (f : K → V → Bool) (now : Int)
    (l : List (K × CachedItem V)) :
    ∃ l₁ l₂, l = l₁ ++ l₂ ∧
      (iterGo f now l).1 = sweep now l₁ ++ l₂ ∧
      (iterGo f now l).2 = (sweep now l₁).map (fun p => (p.1, p.2.data)) ∧
      allButLastTrue f (iterGo f now l).2 ∧
      (l₂ ≠ [] → lastFalse f (iterGo f now l).2) := by
  induction l with
  | nil => exact ⟨[], [], rfl, rfl, rfl, trivial, fun h => absurd rfl h⟩
  | cons p rest ih =>
    obtain ⟨k, it⟩ := p
    obtain ⟨l₁, l₂, hsplit, hitems, hvis, halb, hlast⟩ := ih
    by_cases h : it.expires > 0 ∧ now > it.expires
    · have e1 : iterGo f now ((k, it) :: rest) = iterGo f now rest := by
        simp [iterGo, h]
      have e2 : sweep now ((k, it) :: l₁) = sweep now l₁ := by
        simp [sweep, h]
      exact ⟨(k, it) :: l₁, l₂, by simp [hsplit], by rw [e1, e2]; exact hitems,
        by rw [e1, e2]; exact hvis, by rw [e1]; exact halb,
        fun hne => by rw [e1]; exact hlast hne⟩
    · have e2 : sweep now ((k, it) :: l₁) = (k, it) :: sweep now l₁ := by
        simp [sweep, h]
      cases hf : f k it.data with
      | true =>
        have e1 : iterGo f now ((k, it) :: rest) =
            ((k, it) :: (iterGo f now rest).1, (k, it.data) :: (iterGo f now rest).2) := by
          simp [iterGo, h, hf]
        refine ⟨(k, it) :: l₁, l₂, by simp [hsplit], ?_, ?_, ?_, ?_⟩
        · rw [e1, e2]
          show (k, it) :: (iterGo f now rest).1 = ((k, it) :: sweep now l₁) ++ l₂
          rw [List.cons_append, hitems]
        · rw [e1, e2]
          show (k, it.data) :: (iterGo f now rest).2 =
            ((k, it) :: sweep now l₁).map (fun p => (p.1, p.2.data))
          rw [List.map_cons, hvis]
        · rw [e1]
          show allButLastTrue f ((k, it.data) :: (iterGo f now rest).2)
          cases hv : (iterGo f now rest).2 with
          | nil => trivial
          | cons q qs =>
            rw [hv] at halb
            exact ⟨hf, halb⟩
        · intro hne
          rw [e1]
          have hlf : lastFalse f (iterGo f now rest).2 := hlast hne
          show lastFalse f ((k, it.data) :: (iterGo f now rest).2)
          cases hv : (iterGo f now rest).2 with
          | nil =>
            rw [hv] at hlf
            exact absurd hlf (fun hh => hh)
          | cons q qs =>
            rw [hv] at hlf
            exact hlf
      | false =>
        have e1 : iterGo f now ((k, it) :: rest) = ((k, it) :: rest, [(k, it.data)]) := by
          simp [iterGo, h, hf]
        refine ⟨[(k, it)], rest, rfl, ?_, ?_, ?_, ?_⟩
        · rw [e1]
          show (k, it) :: rest = sweep now [(k, it)] ++ rest
          simp [sweep, h]
        · rw [e1]
          show [(k, it.data)] = (sweep now [(k, it)]).map (fun p => (p.1, p.2.data))
          simp [sweep, h]
        · rw [e1]
          trivial
        · intro _
          rw [e1]
          exact hf

/-! ### Claim C1 -/

/-- Claim C1: for every non-null key, non-null value, and ttl strictly greater
than 0, `Set(key, value, ttl)` at time `t0` followed by `Get(key)` at any time
`t1` no later than `t0 + ttl` (before the ttl has elapsed) returns the stored
value with `found = true` and no error. -/
theorem claim_C1 {K V : Type} [DecidableEq K] (st : CacheStore K V) (k : K) (v : V)
    (ttl t0 t1 : Int) (httl : 0 < ttl) (ht : t1 ≤ t0 + ttl) :
    (Set st (some k) (some v) ttl t0).1 = none ∧
    (Get (Set st (some k) (some v) ttl t0).2 (some k) t1).value = some v ∧
    (Get (Set st (some k) (some v) ttl t0).2 (some k) t1).found = true ∧
    (Get (Set st (some k) (some v) ttl t0).2 (some k) t1).error = none := by
  have hnot : ¬((t0 + ttl > 0) ∧ t1 > t0 + ttl) := fun h => absurd h.2 (not_lt.mpr ht)
  simp [Set, Get, lookup, if_pos httl, hnot]

/-- Witness for C1 at a concrete store, key, value, ttl, and times. -/
theorem claim_C1_witness :
    (Set (⟨[], false, 1⟩ : CacheStore Nat Nat) (some 2) (some 7) 5 100).1 = none ∧
    (Get (Set (⟨[], false, 1⟩ : CacheStore Nat Nat) (some 2) (some 7) 5 100).2
      (some 2) 103).value = some 7 ∧
    (Get (Set (⟨[], false, 1⟩ : CacheStore Nat Nat) (some 2) (some 7) 5 100).2
      (some 2) 103).found = true ∧
    (Get (Set (⟨[], false, 1⟩ : CacheStore Nat Nat) (some 2) (some 7) 5 100).2
      (some 2) 103).error = none :=
  claim_C1 ⟨[], false, 1⟩ 2 7 5 100 103 (by decide) (by decide)

/-! ### Claim C2 -/

/-- Claim C2, counterexample: an entry whose stored `expires` is `-1` has
`expiresAt ≠ 0` and the current time `10` strictly exceeds it, so the claim
demands `found = false` with the entry deleted; the code instead returns the
value with `found = true` and leaves the store unchanged, because its check is
`expires > 0`, not `expires ≠ 0`. -/
theorem claim_C2_cex :
    ((-1 : Int) ≠ 0 ∧ (10 : Int) > -1) ∧
    (Get (⟨[(0, ⟨5, -1⟩)], false, 1⟩ : CacheStore Nat Nat) (some 0) 10).found = true ∧
    (Get (⟨[(0, ⟨5, -1⟩)], false, 1⟩ : CacheStore Nat Nat) (some 0) 10).store =
      (⟨[(0, ⟨5, -1⟩)], false, 1⟩ : CacheStore Nat Nat) :=
  ⟨by decide, rfl, rfl⟩

/-- Claim C2 (amended): for every non-null key, `Get` behaves as: if the key
is absent it returns `found = false` with no error; if the entry is present
with `expiresAt > 0` (not merely `≠ 0`) and the current time strictly exceeds
`expiresAt`, `Get` deletes that entry from the map and returns `found = false`
with no error; otherwise it returns the stored value with `found = true`. In
no case does `Get` return an error for an absent or expired key. -/
theorem claim_C2 {K V : Type} [DecidableEq K] (st : CacheStore K V) (k : K) (now : Int) :
    (Get st (some k) now).error = none ∧
    (lookup k st.items = none → Get st (some k) now = ⟨none, false, none, st⟩) ∧
    (∀ it, lookup k st.items = some it → it.expires > 0 → now > it.expires →
      (Get st (some k) now).value = none ∧
      (Get st (some k) now).found = false ∧
      (Get st (some k) now).store.items = eraseKey k st.items ∧
      lookup k (Get st (some k) now).store.items = none) ∧
    (∀ it, lookup k st.items = some it → ¬(it.expires > 0 ∧ now > it.expires) →
      Get st (some k) now = ⟨some it.data, true, none, st⟩) := by
  refine ⟨?_, ?_, ?_, ?_⟩
  · cases hl : lookup k st.items with
    | none => simp [Get, hl]
    | some it =>
      by_cases h : it.expires > 0 ∧ now > it.expires <;> simp [Get, hl, h]
  · intro hl
    simp [Get, hl]
  · intro it hl h1 h2
    have hc : it.expires > 0 ∧ now > it.expires := ⟨h1, h2⟩
    simp [Get, hl, hc, lookup_eraseKey_self]
  · intro it hl h
    simp [Get, hl, h]

/-- Witness for the amended C2 on a concrete expired entry. -/
theorem claim_C2_witness :
    (Get (⟨[(4, ⟨9, 3⟩)], false, 1⟩ : CacheStore Nat Nat) (some 4) 10).found = false ∧
    lookup 4 (Get (⟨[(4, ⟨9, 3⟩)], false, 1⟩ : CacheStore Nat Nat)
      (some 4) 10).store.items = none :=
  ⟨((claim_C2 ⟨[(4, ⟨9, 3⟩)], false, 1⟩ 4 10).2.2.1 ⟨9, 3⟩ (by rfl) (by decide) (by decide)).2.1,
   ((claim_C2 ⟨[(4, ⟨9, 3⟩)], false, 1⟩ 4 10).2.2.1 ⟨9, 3⟩ (by rfl) (by decide) (by decide)).2.2.2⟩

/-! ### Claim C4 -/

/-- Claim C4: for every non-null key and non-null value,
`Set(key, value, duration)` succeeds, stores `expiresAt = now + duration` when
`duration > 0` and `expiresAt = 0` (permanent) when `duration ≤ 0`, and
unconditionally replaces any existing entry for that key: after `Set` the
lookup of that key yields exactly the new value and expiration, and every
other key's binding is unchanged. -/
theorem claim_C4 {K V : Type} [DecidableEq K] (st : CacheStore K V) (k : K) (v : V)
    (duration now : Int) :
    (Set st (some k) (some v) duration now).1 = none ∧
    lookup k (Set st (some k) (some v) duration now).2.items =
      some ⟨v, if duration > 0 then now + duration else 0⟩ ∧
    (∀ k', k' ≠ k →
      lookup k' (Set st (some k) (some v) duration now).2.items = lookup k' st.items) := by
  refine ⟨rfl, ?_, ?_⟩
  · simp [Set, lookup]
  · intro k' hk
    simp [Set, lookup, Ne.symm hk, lookup_eraseKey_ne hk]

/-- Witness for C4: overwriting an existing entry for key 2 while key 3's
absence is preserved. -/
theorem claim_C4_witness :
    (Set (⟨[(2, ⟨9, 50⟩)], false, 1⟩ : CacheStore Nat Nat) (some 2) (some 7) 5 100).1 = none ∧
    lookup 2 (Set (⟨[(2, ⟨9, 50⟩)], false, 1⟩ : CacheStore Nat Nat)
      (some 2) (some 7) 5 100).2.items = some ⟨7, if (5 : Int) > 0 then (100 : Int) + 5 else 0⟩ ∧
    lookup 3 (Set (⟨[(2, ⟨9, 50⟩)], false, 1⟩ : CacheStore Nat Nat)
      (some 2) (some 7) 5 100).2.items =
      lookup 3 ((⟨[(2, ⟨9, 50⟩)], false, 1⟩ : CacheStore Nat Nat)).items :=
  ⟨(claim_C4 ⟨[(2, ⟨9, 50⟩)], false, 1⟩ 2 7 5 100).1,
   (claim_C4 ⟨[(2, ⟨9, 50⟩)], false, 1⟩ 2 7 5 100).2.1,
   (claim_C4 ⟨[(2, ⟨9, 50⟩)], false, 1⟩ 2 7 5 100).2.2 3 (by decide)⟩

/-! ### Claim C8 -/

/-- Claim C8: `Get(nil)`, `Set(nil, v, t)`, `Set(k, nil, t)`,
`RemoveKey(nil)`, and `Iterate(nil)` each fail with the corresponding
"cannot be nil" error, and in every such case the store is returned exactly
as it was before the call. -/
theorem claim_C8 {K V : Type} [DecidableEq K] (st : CacheStore K V) (k : K)
    (v : Option V) (duration now t : Int) :
    Get st none now = ⟨none, false, some "key cannot be nil", st⟩ ∧
    Set st none v duration now = (some "key cannot be nil", st) ∧
    Set st (some k) none duration now = (some "value cannot be nil", st) ∧
    RemoveKey st none = (some "key cannot be nil", st) ∧
    Iterate st (none : Option (K → V → Bool)) t = ⟨some "function cannot be nil", st, []⟩ :=
  ⟨rfl, rfl, rfl, rfl, rfl⟩

/-! ### Claim C9 -/

/-- Claim C9: `NewCacheStore(sweepInterval)` fails with the configuration
error exactly when `sweepInterval ≤ 0` (no store is returned then), and for
every `sweepInterval > 0` it succeeds and returns a store whose map is
empty. -/
theorem claim_C9 (K V : Type) (i : Int) :
    (i ≤ 0 → NewCacheStore K V i = Except.error "cleaning interval must be positive") ∧
    (0 < i → NewCacheStore K V i =
      Except.ok { items := [], cancelled := false, cleaningInterval := i }) := by
  constructor
  · intro h
    simp [NewCacheStore, h]
  · intro h
    simp [NewCacheStore, not_le.mpr h]

/-- Witness for C9 at intervals 0, -5 and 1. -/
theorem claim_C9_witness :
    NewCacheStore Nat Nat 0 = Except.error "cleaning interval must be positive" ∧
    NewCacheStore Nat Nat (-5) = Except.error "cleaning interval must be positive" ∧
    NewCacheStore Nat Nat 1 =
      Except.ok { items := [], cancelled := false, cleaningInterval := 1 } :=
  ⟨(claim_C9 Nat Nat 0).1 (by decide), (claim_C9 Nat Nat (-5)).1 (by decide),
   (claim_C9 Nat Nat 1).2 (by decide)⟩

/-! ### Claim C10 -/

/-- Claim C10: `Get(key)` modifies at most the entry for the queried key:
every other key's binding is untouched in all cases; when the key is absent
or its entry is not expired the store is left completely unchanged; and on
the lazy-expiration path the queried key's entry is deleted. -/
theorem claim_C10 {K V : Type} [DecidableEq K] (st : CacheStore K V) (k : K) (now : Int) :
    (∀ k', k' ≠ k → lookup k' (Get st (some k) now).store.items = lookup k' st.items) ∧
    (lookup k st.items = none → (Get st (some k) now).store = st) ∧
    (∀ it, lookup k st.items = some it → ¬(it.expires > 0 ∧ now > it.expires) →
      (Get st (some k) now).store = st) ∧
    (∀ it, lookup k st.items = some it → it.expires > 0 → now > it.expires →
      lookup k (Get st (some k) now).store.items = none) := by
  refine ⟨?_, ?_, ?_, ?_⟩
  · intro k' hk
    cases hl : lookup k st.items with
    | none => simp [Get, hl]
    | some it =>
      by_cases h : it.expires > 0 ∧ now > it.expires
      · simp [Get, hl, h, lookup_eraseKey_ne hk]
      · simp [Get, hl, h]
  · intro hl
    simp [Get, hl]
  · intro it hl h
    simp [Get, hl, h]
  · intro it hl h1 h2
    have hc : it.expires > 0 ∧ now > it.expires := ⟨h1, h2⟩
    simp [Get, hl, hc, lookup_eraseKey_self]

/-- Witness for C10: a `Get` that lazily expires key 1 leaves key 2's binding
intact and removes key 1's. -/
theorem claim_C10_witness :
    lookup 2 (Get (⟨[(1, ⟨4, 3⟩), (2, ⟨6, 0⟩)], false, 1⟩ : CacheStore Nat Nat)
      (some 1) 10).store.items =
      lookup 2 ([(1, ⟨4, 3⟩), (2, ⟨6, 0⟩)] : List (Nat × CachedItem Nat)) ∧
    lookup 1 (Get (⟨[(1, ⟨4, 3⟩), (2, ⟨6, 0⟩)], false, 1⟩ : CacheStore Nat Nat)
      (some 1) 10).store.items = none :=
  ⟨(claim_C10 ⟨[(1, ⟨4, 3⟩), (2, ⟨6, 0⟩)], false, 1⟩ 1 10).1 2 (by decide),
   (claim_C10 ⟨[(1, ⟨4, 3⟩), (2, ⟨6, 0⟩)], false, 1⟩ 1 10).2.2.2 ⟨4, 3⟩ (by rfl)
     (by decide) (by decide)⟩

/-! ### Claim C3 -/

/-- Claim C3, counterexample: an entry whose stored expiration is `-1` is
negative, so the claim demands `Get` report not-found and delete it, `Iterate`
skip and delete it, and the sweeper remove it; the code instead treats it as
permanent: `Get` finds it, `Iterate` visits it and keeps it, and the sweeper
pass leaves the store unchanged, because every expiry check requires
`expires > 0`. -/
theorem claim_C3_cex :
    ((-1 : Int) < 0) ∧
    (Get (⟨[(0, ⟨7, -1⟩)], false, 1⟩ : CacheStore Nat Nat) (some 0) 10).found = true ∧
    cleanupExpiredItems 10 (⟨[(0, ⟨7, -1⟩)], false, 1⟩ : CacheStore Nat Nat) =
      (⟨[(0, ⟨7, -1⟩)], false, 1⟩ : CacheStore Nat Nat) ∧
    (Iterate (⟨[(0, ⟨7, -1⟩)], false, 1⟩ : CacheStore Nat Nat)
      (some fun _ _ => true) 10).visited = [(0, 7)] ∧
    (Iterate (⟨[(0, ⟨7, -1⟩)], false, 1⟩ : CacheStore Nat Nat)
      (some fun _ _ => true) 10).store.items = [(0, ⟨7, -1⟩)] :=
  ⟨by decide, rfl, rfl, rfl, rfl⟩

/-- Claim C3 (amended): an entry whose stored expiration timestamp is negative
is treated as permanent, never as expired: `Get` on its key returns the value
with `found = true` and leaves the store unchanged, the sweeper's pass keeps
the entry, and an always-continue `Iterate` both visits the entry and keeps it
in the map. -/
theorem claim_C3 {K V : Type} [DecidableEq K] (st : CacheStore K V) (k : K)
    (it : CachedItem V) (now : Int) (hl : lookup k st.items = some it)
    (hneg : it.expires < 0) :
    Get st (some k) now = ⟨some it.data, true, none, st⟩ ∧
    (k, it) ∈ (cleanupExpiredItems now st).items ∧
    (k, it.data) ∈ (Iterate st (some fun _ _ => true) now).visited ∧
    (k, it) ∈ (Iterate st (some fun _ _ => true) now).store.items := by
  have hexp : ¬(it.expires > 0 ∧ now > it.expires) := fun hh =>
    absurd hh.1 (not_lt.mpr hneg.le)
  have hmem : (k, it) ∈ st.items := lookup_mem hl
  refine ⟨by simp [Get, hl, hexp], ?_, ?_, ?_⟩
  · exact (mem_sweep now (k, it) st.items).mpr ⟨hmem, hexp⟩
  · show (k, it.data) ∈ (iterGo (fun _ _ => true) now st.items).2
    rw [iterGo_true]
    exact List.mem_map.mpr ⟨(k, it), (mem_sweep now (k, it) st.items).mpr ⟨hmem, hexp⟩, rfl⟩
  · show (k, it) ∈ (iterGo (fun _ _ => true) now st.items).1
    rw [iterGo_true]
    exact (mem_sweep now (k, it) st.items).mpr ⟨hmem, hexp⟩

/-- Witness for the amended C3 on a concrete negative-expiration entry. -/
theorem claim_C3_witness :
    Get (⟨[(3, ⟨8, -2⟩)], false, 1⟩ : CacheStore Nat Nat) (some 3) 5 =
      ⟨some 8, true, none, ⟨[(3, ⟨8, -2⟩)], false, 1⟩⟩ ∧
    (3, (⟨8, -2⟩ : CachedItem Nat)) ∈
      (cleanupExpiredItems 5 (⟨[(3, ⟨8, -2⟩)], false, 1⟩ : CacheStore Nat Nat)).items ∧
    (3, 8) ∈ (Iterate (⟨[(3, ⟨8, -2⟩)], false, 1⟩ : CacheStore Nat Nat)
      (some fun _ _ => true) 5).visited ∧
    (3, (⟨8, -2⟩ : CachedItem Nat)) ∈
      (Iterate (⟨[(3, ⟨8, -2⟩)], false, 1⟩ : CacheStore Nat Nat)
        (some fun _ _ => true) 5).store.items :=
  claim_C3 ⟨[(3, ⟨8, -2⟩)], false, 1⟩ 3 ⟨8, -2⟩ 5 (by rfl) (by decide)

/-! ### Claim C5 -/

/-- Claim C5, counterexample: an entry with stored expiration `-7` has
`expiresAt ≠ 0` and `expiresAt < 4`, so the claim demands the sweeper's pass
at captured time `4` delete it; the pass leaves the store unchanged, because
the sweeper's check requires `expires > 0`. -/
theorem claim_C5_cex :
    ((-7 : Int) ≠ 0 ∧ (-7 : Int) < 4) ∧
    cleanupExpiredItems 4 (⟨[(2, ⟨3, -7⟩)], false, 1⟩ : CacheStore Nat Nat) =
      (⟨[(2, ⟨3, -7⟩)], false, 1⟩ : CacheStore Nat Nat) :=
  ⟨by decide, rfl⟩

/-- Claim C5 (amended): on a tick at captured time `now`, the sweeper deletes
exactly those entries whose `expiresAt` is strictly positive (not merely
non-zero) and strictly less than the captured time; it never deletes any
other entry, and an entry stored with `expiresAt = 0` is never removed by the
sweeper and remains retrievable: after the sweep, `Get` on its key still
returns its value with `found = true` at any time, until `RemoveKey` or
`CloseCacheStore` discards it. -/
theorem claim_C5 {K V : Type} [DecidableEq K] (st : CacheStore K V) (now : Int)
    (p : K × CachedItem V) :
    (p ∈ (cleanupExpiredItems now st).items ↔
      p ∈ st.items ∧ ¬(p.2.expires > 0 ∧ p.2.expires < now)) ∧
    (p.2.expires = 0 → p ∈ st.items → p ∈ (cleanupExpiredItems now st).items) ∧
    (p.2.expires = 0 → lookup p.1 st.items = some p.2 → ∀ t : Int,
      Get (cleanupExpiredItems now st) (some p.1) t =
        ⟨some p.2.data, true, none, cleanupExpiredItems now st⟩) := by
  refine ⟨mem_sweep now p st.items, ?_, ?_⟩
  · intro h0 hp
    refine (mem_sweep now p st.items).mpr ⟨hp, ?_⟩
    rw [h0]
    simp
  · intro h0 hl t
    have hv : ¬(p.2.expires > 0 ∧ now > p.2.expires) := by
      rw [h0]
      simp
    have ht : ¬(p.2.expires > 0 ∧ t > p.2.expires) := by
      rw [h0]
      simp
    have hl' : lookup p.1 (sweep now st.items) = some p.2 := lookup_sweep now hl hv
    simp [Get, cleanupExpiredItems, hl', ht]

/-- Witness for the amended C5: a permanent entry survives a sweep at a late
captured time and is still found by `Get` afterwards. -/
theorem claim_C5_witness :
    (2, (⟨6, 0⟩ : CachedItem Nat)) ∈
      (cleanupExpiredItems 100 (⟨[(2, ⟨6, 0⟩)], false, 1⟩ : CacheStore Nat Nat)).items ∧
    Get (cleanupExpiredItems 100 (⟨[(2, ⟨6, 0⟩)], false, 1⟩ : CacheStore Nat Nat))
      (some 2) 200 =
      ⟨some 6, true, none,
        cleanupExpiredItems 100 (⟨[(2, ⟨6, 0⟩)], false, 1⟩ : CacheStore Nat Nat)⟩ :=
  ⟨(claim_C5 ⟨[(2, ⟨6, 0⟩)], false, 1⟩ 100 (2, ⟨6, 0⟩)).2.1 rfl (by simp),
   (claim_C5 ⟨[(2, ⟨6, 0⟩)], false, 1⟩ 100 (2, ⟨6, 0⟩)).2.2 rfl (by rfl) 200⟩

/-! ### Claim C6 -/

/-- Claim C6, counterexample: the entry with stored expiration `-2` satisfies
the claim's "found expired during the scan" condition (`expiresAt ≠ 0` and
scan time `5` exceeds it), so the claim demands `Iterate` delete it without
invoking the callback; the code instead invokes the callback on it and keeps
it in the map. -/
theorem claim_C6_cex :
    ((-2 : Int) ≠ 0 ∧ (5 : Int) > -2) ∧
    (Iterate (⟨[(1, ⟨9, -2⟩)], false, 1⟩ : CacheStore Nat Nat)
      (some fun _ _ => true) 5).visited = [(1, 9)] ∧
    (Iterate (⟨[(1, ⟨9, -2⟩)], false, 1⟩ : CacheStore Nat Nat)
      (some fun _ _ => true) 5).store.items = [(1, ⟨9, -2⟩)] :=
  ⟨by decide, rfl, rfl⟩

/-- Claim C6 (amended): for every non-null callback, `Iterate` returns no
error, and the scan splits the map into a processed part `l₁` and an
untouched rest `l₂`: every entry of `l₁` found expired (`expiresAt > 0`, not
merely `≠ 0`, and the scan time strictly exceeds it) is deleted and never
passed to the callback, the callback is invoked exactly on the still-valid
entries of `l₁` in order, every invocation before the last returned `true`,
and the scan stops short of `l₂` only when the last invocation returned
`false` — partial iteration is still a success. -/
theorem claim_C6 {K V : Type} (st : CacheStore K V) (f : K → V → Bool) (now : Int) :
    (Iterate st (some f) now).error = none ∧
    ∃ l₁ l₂, st.items = l₁ ++ l₂ ∧
      (Iterate st (some f) now).store.items = sweep now l₁ ++ l₂ ∧
      (Iterate st (some f) now).visited = (sweep now l₁).map (fun p => (p.1, p.2.data)) ∧
      allButLastTrue f (Iterate st (some f) now).visited ∧
      (l₂ ≠ [] → lastFalse f (Iterate st (some f) now).visited) := by
  refine ⟨rfl, ?_⟩
  obtain ⟨l₁, l₂, h1, h2, h3, h4, h5⟩ := iterGo_split f now st.items
  exact ⟨l₁, l₂, h1, h2, h3, h4, h5⟩

/-- Witness for the amended C6: a scan over one expired and one permanent
entry returns no error. -/
theorem claim_C6_witness :
    (Iterate (⟨[(1, ⟨4, 3⟩), (2, ⟨6, 0⟩)], false, 1⟩ : CacheStore Nat Nat)
      (some fun _ _ => true) 10).error = none :=
  (claim_C6 ⟨[(1, ⟨4, 3⟩), (2, ⟨6, 0⟩)], false, 1⟩ (fun _ _ => true) 10).1

/-! ### Claim C7 -/

/-- Claim C7: after `CloseCacheStore` the map of entries is empty, so
`Iterate` invokes its callback on zero entries and returns no error, and
`CloseCacheStore` is idempotent: a second call yields the same store. -/
theorem claim_C7 {K V : Type} (st : CacheStore K V) (f : K → V → Bool) (now : Int) :
    (CloseCacheStore st).items = [] ∧
    (Iterate (CloseCacheStore st) (some f) now).visited = [] ∧
    (Iterate (CloseCacheStore st) (some f) now).error = none ∧
    CloseCacheStore (CloseCacheStore st) = CloseCacheStore st :=
  ⟨rfl, rfl, rfl, rfl⟩

end CacheSpec
